import Mathlib

/-!
Shallow embedding of the operator-algebra-to-matrix pipeline of
`qiskit_dynamics/builders/dynamical_operators.py`, together with a
spec-derived model of the custom binary-op compiler
(`qiskit_dynamics/perturbation/custom_binary_op.py`, whose source is not
in the repository snapshot; only its tests are).

Modelling conventions:
* Python `raise Exception(msg)` (and other exception classes) is modelled
  by returning `Except.error` carrying the exception class name and message.
* `DynamicalOperatorKey` defines `__hash__` but not `__eq__`, so Python
  dictionary key comparison falls back to object identity.  We model object
  identity by tagging every freshly allocated key with a distinct `oid`
  drawn from a counter threaded through the flattening recursion; two keys
  are "Python-equal" exactly when their `oid`s coincide.
* Matrices are square, modelled as a dimension together with a total entry
  function `ℕ → ℕ → ℂ` that is zero outside the declared range.
-/

namespace DynOps

/-- A raised Python exception: its class name and its message. -/
structure PyErr where
  cls : String
  msg : String
deriving DecidableEq, Repr

/-- The DEFAULT_ALIASES table of DynamicalOperator (both strings lower case). -/
def defaultAliases (s : String) : Option String :=
  if s = "id" then some "i"
  else if s = "sx" then some "x"
  else if s = "sy" then some "y"
  else if s = "sz" then some "z"
  else none

/-- Python str.lower() on the ASCII type names used by this module,
character by character. -/
def strLower (s : String) : String := ⟨s.data.map Char.toLower⟩

/-- Computation of the field s_type_unique performed by the s_type setter:
lower-case the declared type and resolve it through the alias table
(`self._s_type_unique = self.aliases.get(s_type, s_type)`). -/
def sTypeUnique (s_type : String) : String :=
  (defaultAliases (strLower s_type)).getD (strLower s_type)

/-- An operator expression tree, as constructible through the overloaded
arithmetic of `DynamicalOperator`.  Each constructor records the
`compound_type` tag and the `compound_ops` list the Python code stores:
`leaf` is a node with `compound_type = ''`; `sum` has tag `'+'` and
operand list `[a, b]`; `prod` has tag `'@'` and operand list `[a, b]`;
`smul` has tag `'*'` and operand list `[operand, scalar]` (the operand is
always first, the scalar second). -/
inductive DynOp where
  | leaf (system_id : ℕ) (s_type : String)
  | sum (a b : DynOp)
  | prod (a b : DynOp)
  | smul (a : DynOp) (z : ℂ)

/-- A Python value that may appear as the second operand of the arithmetic
methods: a DynamicalOperator, a numeric scalar (complex/float/int, all
modelled in ℂ), or a value of some other class (its type name recorded). -/
inductive PyVal where
  | node (o : DynOp)
  | num (z : ℂ)
  | other (typeName : String)

/-- The message of the exception raised by __add__ on a non-operator
operand. -/
def addTypeMsg : String :=
  "Both operands in an addition must be instances of a DynamicalOperator."

/-- The message of the exception raised by __mul__ on an unsupported
operand. -/
def mulTypeMsg : String :=
  "The second operand of a multiplication must be a DynamicalOperator class or a scalar."

/-- DynamicalOperator.__add__: raises unless the second operand is a
DynamicalOperator; otherwise returns a compound node with tag `'+'` and
operands `[self, other]`. -/
def dynAdd (self : DynOp) (other : PyVal) : Except PyErr DynOp :=
  match other with
  | .node o => .ok (.sum self o)
  | _ => .error ⟨"Exception", addTypeMsg⟩

/-- DynamicalOperator.__mul__: an operator operand yields a `'@'` product
node `[self, other]`; a numeric scalar yields a `'*'` node with the
operator first and the scalar second; anything else raises. -/
def dynMul (self : DynOp) (other : PyVal) : Except PyErr DynOp :=
  match other with
  | .node o => .ok (.prod self o)
  | .num z => .ok (.smul self z)
  | .other _ => .error ⟨"Exception", mulTypeMsg⟩

/-- DynamicalOperator.__rmul__: delegates to __mul__, so the operator is
again placed first and the scalar second. -/
def dynRmul (self : DynOp) (other : PyVal) : Except PyErr DynOp :=
  dynMul self other

/-- The classes Sx, Sy, Sz, Sp, Sm, Sid: leaves with fixed s_type. -/
def Sx (system_id : ℕ) : DynOp := .leaf system_id "x"

/-- The class Sy. -/
def Sy (system_id : ℕ) : DynOp := .leaf system_id "y"

/-- The class Sz. -/
def Sz (system_id : ℕ) : DynOp := .leaf system_id "z"

/-- The class Sid (s_type "id", aliased to unique type "i"). -/
def Sid (system_id : ℕ) : DynOp := .leaf system_id "id"

/-- A DynamicalOperatorKey object: carries the `(system_id, s_type_unique)`
data plus the allocation tag `oid` standing for Python object identity
(the class defines `__hash__` but not `__eq__`, so `==` on keys is `is`). -/
structure KeyObj where
  oid : ℕ
  system_id : ℕ
  s_type_unique : String
deriving DecidableEq, Repr

/-- Python `==` between two DynamicalOperatorKey objects: object identity,
i.e. equality of allocation tags. -/
def keyIs (a b : KeyObj) : Bool := a.oid = b.oid

/-- Python `==` between two tuples of keys: same length and element-wise
object identity. -/
def tupleIs (a b : List KeyObj) : Bool := a.map KeyObj.oid = b.map KeyObj.oid

/-- A Python dict with key-tuple keys and complex values, in insertion
order. -/
abbrev PyDict := List (List KeyObj × ℂ)

/-- Python `d.get(key, default)` restricted to our key tuples: the value at
the first (and only) tuple comparing `==` to `key`, if any. -/
def pyGet (d : PyDict) (key : List KeyObj) : Option ℂ :=
  (d.find? (fun e => tupleIs e.1 key)).map (·.2)

/-- Python `d[key] = v`: replaces the value at an existing `==`-equal key in
place (keeping the stored key object and its position), else appends. -/
def pySet (d : PyDict) (key : List KeyObj) (v : ℂ) : PyDict :=
  if (d.find? (fun e => tupleIs e.1 key)).isSome then
    d.map (fun e => if tupleIs e.1 key then (e.1, v) else e)
  else
    d ++ [(key, v)]

/-- The merge loop of the `'+'` branch of `_build_one_dict`: for each item
of the summand's dict, `val_sum = val + result.get(key, 0); result[key] =
val_sum`. -/
def mergeInto (result : PyDict) (opDict : PyDict) : PyDict :=
  opDict.foldl (fun r e => pySet r e.1 (e.2 + (pyGet r e.1).getD 0)) result

/-- OperatorBuilder._build_one_dict, with the fresh-allocation counter for
key objects threaded explicitly.  Branches follow the source: `'+'` merges
the summands' dicts item-wise into an initially empty dict; `'@'`
concatenates the key elements of every item of both operands' dicts into
one key and multiplies all their values into one scalar, producing a
single entry; `'*'` multiplies every value by the scalar; a leaf produces
the singleton `{(key,): 1}` with a freshly allocated key object.  The
"unknown operator" raise is unreachable here because the inductive covers
exactly the four compound_type tags the arithmetic can construct. -/
def buildOneDict : DynOp → ℕ → PyDict × ℕ
  | .leaf i t, n => ([([⟨n, i, sTypeUnique t⟩], 1)], n + 1)
  | .sum a b, n =>
    let (da, n1) := buildOneDict a n
    let (db, n2) := buildOneDict b n1
    (mergeInto (mergeInto [] da) db, n2)
  | .prod a b, n =>
    let (da, n1) := buildOneDict a n
    let (db, n2) := buildOneDict b n1
    let newKey := (da ++ db).foldl (fun acc e => acc ++ e.1) []
    let newVal := (da ++ db).foldl (fun acc e => acc * e.2) 1
    ([(newKey, newVal)], n2)
  | .smul a z, n =>
    let (da, n1) := buildOneDict a n
    (da.map (fun e => (e.1, e.2 * z)), n1)

/-- OperatorBuilder.build_dictionaries on a list argument: one flattening
per operator, fresh allocations threaded left to right. -/
def buildDictionaries : List DynOp → ℕ → List PyDict × ℕ
  | [], n => ([], n)
  | op :: rest, n =>
    let (d, n1) := buildOneDict op n
    let (ds, n2) := buildDictionaries rest n1
    (d :: ds, n2)

/-- A square numpy matrix over ℂ: its dimension and a total entry
function, kept zero outside the declared index range. -/
structure Mat where
  dim : ℕ
  entry : ℕ → ℕ → ℂ

/-- Two matrices with the same dimension and the same entry function are
equal. -/
@[ext] theorem Mat.ext_dim {A B : Mat} (hd : A.dim = B.dim)
    (he : A.entry = B.entry) : A = B := by
  cases A; cases B; cases hd; cases he; rfl

/-- np.zeros((dim, dim), complex). -/
def zerosMat (dim : ℕ) : Mat := ⟨dim, fun _ _ => 0⟩

/-- np.identity(dim, complex). -/
def identMat (dim : ℕ) : Mat :=
  ⟨dim, fun i j => if i = j ∧ i < dim then 1 else 0⟩

/-- A 2x2 matrix from its four entries. -/
def mat2 (a b c d : ℂ) : Mat :=
  ⟨2, fun i j =>
    if i = 0 ∧ j = 0 then a else if i = 0 ∧ j = 1 then b
    else if i = 1 ∧ j = 0 then c else if i = 1 ∧ j = 1 then d else 0⟩

/-- np.kron: the left operand varies along the outer (slower) index. -/
def kronMat (A B : Mat) : Mat :=
  ⟨A.dim * B.dim, fun i j =>
    A.entry (i / B.dim) (j / B.dim) * B.entry (i % B.dim) (j % B.dim)⟩

/-- Matrix product A @ B of square matrices. -/
def matmulMat (A B : Mat) : Mat :=
  ⟨A.dim, fun i j => ((List.range B.dim).map (fun k => A.entry i k * B.entry k j)).sum⟩

/-- Entry-wise matrix sum A + B (shapes agree at every use site). -/
def addMat (A B : Mat) : Mat :=
  ⟨A.dim, fun i j => A.entry i j + B.entry i j⟩

/-- Scalar times matrix, val * op_matrix. -/
def smulMat (z : ℂ) (A : Mat) : Mat :=
  ⟨A.dim, fun i j => z * A.entry i j⟩

/-- The message of the unsupported-operator exception raised by
get_operator_matrix. -/
def unsupportedMsg (t : String) (dim : ℕ) : String :=
  "Operator type " ++ t ++
    " unknown or unsupported for matrix generation with dimension " ++
    toString dim ++ "."

/-- DynamicalOperator.get_operator_matrix: the "null" type yields the zero
matrix at any dimension; at dimension 2 the eight two-level operators are
realized; every other request raises. -/
def getOperatorMatrix (t : String) (dim : ℕ) : Except PyErr Mat :=
  if t = "null" then .ok (zerosMat dim)
  else if dim = 2 then
    if t = "i" then .ok (identMat dim)
    else if t = "x" then .ok (mat2 0 1 1 0)
    else if t = "y" then .ok (mat2 0 (-Complex.I) Complex.I 0)
    else if t = "z" then .ok (mat2 1 0 0 (-1))
    else if t = "sp" then .ok (mat2 0 1 0 0)
    else if t = "sm" then .ok (mat2 0 0 1 0)
    else if t = "0" then .ok (mat2 1 0 0 0)
    else if t = "1" then .ok (mat2 0 0 0 1)
    else .error ⟨"Exception", unsupportedMsg t dim⟩
  else .error ⟨"Exception", unsupportedMsg t dim⟩

/-- DynamicalOperator.get_zeros_matrix: get_operator_matrix("null", dim),
which always succeeds with the zero matrix. -/
def getZerosMatrix (dim : ℕ) : Mat := zerosMat dim

/-- Lookup in the subsystems OrderedDict (subsystem ids compared by
value). -/
def subsystemsGet (S : List (ℕ × ℕ)) (i : ℕ) : Option ℕ :=
  (S.find? (fun p => p.1 = i)).map (·.2)

/-- Lookup in the sub_matrices dict of _build_one_matrix. -/
def subsGet (subs : List (ℕ × Mat)) (i : ℕ) : Option Mat :=
  (subs.find? (fun p => p.1 = i)).map (·.2)

/-- Store into the sub_matrices dict: replace in place or append. -/
def subsSet (subs : List (ℕ × Mat)) (i : ℕ) (m : Mat) : List (ℕ × Mat) :=
  if (subs.find? (fun p => p.1 = i)).isSome then
    subs.map (fun p => if p.1 = i then (i, m) else p)
  else
    subs ++ [(i, m)]

/-- The message of the missing-subsystem exception raised by
_build_one_matrix. -/
def missingIdMsg (i : ℕ) : String :=
  "An operator was defined with id = " ++ toString i ++
    ", but this id does not appear in the subsystems parameter."

/-- The inner loop of _build_one_matrix over the elements of one key
tuple: look the subsystem dimension up (raising the missing-id exception
on a miss), realize the element's matrix, and accumulate it into the
per-subsystem sub_matrices dict by left-multiplying any matrix already
stored for the same id (`sub_matrix @ new_sub_matrix`). -/
def keyLoop (S : List (ℕ × ℕ)) :
    List KeyObj → List (ℕ × Mat) → Except PyErr (List (ℕ × Mat))
  | [], subs => .ok subs
  | k :: rest, subs =>
    match subsystemsGet S k.system_id with
    | none => .error ⟨"Exception", missingIdMsg k.system_id⟩
    | some dim =>
      match getOperatorMatrix k.s_type_unique dim with
      | .error e => .error e
      | .ok newSub =>
        let newSub2 := match subsGet subs k.system_id with
          | some m => matmulMat m newSub
          | none => newSub
        keyLoop S rest (subsSet subs k.system_id newSub2)

/-- The Kronecker assembly loop of _build_one_matrix: over the subsystem
ids in map order (paired with their cached identity matrices), take the
accumulated sub-matrix or the identity, and left-fold with np.kron.  The
empty case is unreachable because build_matrices returns early on an
empty subsystems dict. -/
def assembleKron (subs : List (ℕ × Mat)) : List (ℕ × Mat) → Mat
  | [] => zerosMat 0
  | p0 :: rest =>
    rest.foldl (fun acc p => kronMat acc ((subsGet subs p.1).getD p.2))
      ((subsGet subs p0.1).getD p0.2)

/-- The outer loop of _build_one_matrix over the dict entries:
`matrix += val * op_matrix` starting from the zero matrix. -/
def bomLoop (S : List (ℕ × ℕ)) (idPairs : List (ℕ × Mat)) :
    PyDict → Mat → Except PyErr Mat
  | [], m => .ok m
  | (key, val) :: rest, m =>
    match keyLoop S key [] with
    | .error e => .error e
    | .ok subs =>
      bomLoop S idPairs rest (addMat m (smulMat val (assembleKron subs idPairs)))

/-- OperatorBuilder._build_one_matrix. -/
def buildOneMatrix (S : List (ℕ × ℕ)) (idPairs : List (ℕ × Mat))
    (totalDim : ℕ) (d : PyDict) : Except PyErr Mat :=
  bomLoop S idPairs d (getZerosMatrix totalDim)

/-- An element of the operators argument of build_matrices: a
DynamicalOperator, a pre-flattened dict, or a value of another class. -/
inductive OpsElem where
  | node (o : DynOp)
  | dict (d : PyDict)
  | other (typeName : String)

/-- The operators argument itself: a bare element or a list. -/
inductive OpsArg where
  | single (x : OpsElem)
  | list (xs : List OpsElem)

/-- The return value of build_matrices: Python None, a single matrix, or a
list of matrices. -/
inductive BuildOut where
  | noneOut
  | mat (m : Mat)
  | mats (ms : List Mat)

/-- The message of the mixed-types exception raised by the verification
loop of build_matrices. -/
def mixedTypesMsg : String :=
  "All operators must be of the same type (a dictionary or a DynamicalOperator)."

/-- The message of the AttributeError hit when a DynamicalOperator is
treated as a dict (paraphrased without quote characters). -/
def attrItemsMsg : String :=
  "DynamicalOperator object has no attribute items"

/-- The type-verification loop of build_matrices, with its flag
`b_dictionaries` threaded through: a dict sets the flag; a value that is
neither dict nor DynamicalOperator raises; a DynamicalOperator seen when
the flag is already set raises the mixed-types exception.  (A dict seen
AFTER operators is not detected: the flag is simply set.) -/
def validateOps : List OpsElem → Bool → Except PyErr Bool
  | [], b => .ok b
  | e :: rest, b =>
    match e with
    | .dict _ => validateOps rest true
    | .node _ =>
      match b with
      | true => .error ⟨"Exception", mixedTypesMsg⟩
      | false => validateOps rest b
    | .other t =>
      .error ⟨"Exception", "Unsupported class type in parameter operators: " ++ t ++ "."⟩

/-- The identity-matrix cache loop of build_matrices: one
get_operator_matrix("i", dim) call per subsystem map entry, in map order,
raising as soon as one fails. -/
def identityLoop : List ℕ → Except PyErr (List Mat)
  | [] => .ok []
  | d :: rest =>
    match getOperatorMatrix "i" d with
    | .error e => .error e
    | .ok m =>
      match identityLoop rest with
      | .error e => .error e
      | .ok ms => .ok (m :: ms)

/-- The nodes among the operators (used on the all-nodes path, where
every element is a DynamicalOperator). -/
def nodesOf (ops : List OpsElem) : List DynOp :=
  ops.filterMap (fun e => match e with | .node o => some o | _ => none)

/-- Realization of one element of operators_dict: on the dictionaries
path an element that is in fact a DynamicalOperator reaches
`operator_dict.items()` and raises AttributeError. -/
def buildElem (S : List (ℕ × ℕ)) (idPairs : List (ℕ × Mat)) (totalDim : ℕ) :
    OpsElem → Except PyErr Mat
  | .dict d => buildOneMatrix S idPairs totalDim d
  | _ => .error ⟨"AttributeError", attrItemsMsg⟩

/-- The result loop of build_matrices over operators_dict. -/
def buildAll (S : List (ℕ × ℕ)) (idPairs : List (ℕ × Mat)) (totalDim : ℕ) :
    List OpsElem → Except PyErr (List Mat)
  | [] => .ok []
  | e :: rest =>
    match buildElem S idPairs totalDim e with
    | .error err => .error err
    | .ok m =>
      match buildAll S idPairs totalDim rest with
      | .error err => .error err
      | .ok ms => .ok (m :: ms)

/-- OperatorBuilder.build_matrices.  Follows the source order: empty
subsystems returns None immediately (before looking at operators); the
total dimension multiplies the positive dimensions only; an empty
operators list returns a zero matrix; the type-verification loop runs
next; then operators_dict is taken verbatim (dictionaries flag) or
flattened from the nodes; then the identity matrices are cached (this can
raise); finally each dict is realized, and a bare (non-list) argument
gets its single result unwrapped. -/
def buildMatrices (operators : OpsArg) (subsystems : List (ℕ × ℕ)) :
    Except PyErr BuildOut :=
  if subsystems.length = 0 then .ok .noneOut
  else
    let ops := match operators with | .single x => [x] | .list xs => xs
    let bFlatten := match operators with | .single _ => true | .list _ => false
    let dims := subsystems.map (·.2)
    let totalDim := dims.foldl (fun acc d => if 0 < d then acc * d else acc) 1
    if ops.length = 0 then .ok (.mat (getZerosMatrix totalDim))
    else
      match validateOps ops false with
      | .error e => .error e
      | .ok bDicts =>
        let operatorsDict :=
          match bDicts with
          | true => ops
          | false => ((buildDictionaries (nodesOf ops) 0).1).map .dict
        match identityLoop dims with
        | .error e => .error e
        | .ok idMats =>
          let idPairs := (subsystems.map (·.1)).zip idMats
          match buildAll subsystems idPairs totalDim operatorsDict with
          | .error e => .error e
          | .ok results =>
            match bFlatten with
            | true =>
              match results with
              | r :: _ => .ok (.mat r)
              | [] => .ok (.mats [])
            | false => .ok (.mats results)

/-- Value view of a key tuple: the `(subsystem_id, canonical_type)` pairs,
the identity the spec treats as the key's identity (ignoring Python
object identity). -/
def valueKey (key : List KeyObj) : List (ℕ × String) :=
  key.map (fun k => (k.system_id, k.s_type_unique))

/-- The effect of the `'*'` flattening branch on a dict: every coefficient
multiplied by the scalar (`op_dict[key] = val * scalar`). -/
def scaleDict (z : ℂ) (d : PyDict) : PyDict :=
  d.map (fun e => (e.1, e.2 * z))

/-- Scalar scaling of a build_matrices result, used to state
realize(c * a) = c * realize(a). -/
def scaleBuildOut (z : ℂ) : BuildOut → BuildOut
  | .noneOut => .noneOut
  | .mat m => .mat (smulMat z m)
  | .mats ms => .mats (ms.map (smulMat z))

/-- Kronecker product of a list of matrices, left to right (the left
factor varying slowest). -/
def kronFold : List Mat → Mat
  | [] => identMat 1
  | m :: ms => ms.foldl kronMat m

/-- Spec-side per-subsystem matrix of a term: the matrices of the key
elements acting on subsystem `i`, multiplied in tuple order, or nothing
when the term does not touch `i`.  `f` assigns each key element its
elementary matrix. -/
def groupedMats (key : List KeyObj) (f : KeyObj → Mat) (i : ℕ) : Option Mat :=
  match (key.filter (fun k => k.system_id = i)).map f with
  | [] => none
  | m :: ms => some (ms.foldl matmulMat m)

/-- Spec-side realization of one normal-form term: the Kronecker product
across the subsystem map's id order of the per-subsystem grouped
matrices, substituting the subsystem's identity matrix when the term does
not touch it. -/
def specTerm (S : List (ℕ × ℕ)) (key : List KeyObj) (f : KeyObj → Mat) : Mat :=
  kronFold (S.map (fun p => (groupedMats key f p.1).getD (identMat p.2)))

/-- Spec-side realization of a whole normal-form dict: each term's matrix
scaled by its coefficient, summed. -/
def specSum (S : List (ℕ × ℕ)) (f : KeyObj → Mat) (totalDim : ℕ)
    (d : PyDict) : Mat :=
  (d.map (fun e => smulMat e.2 (specTerm S e.1 f))).foldr addMat (zerosMat totalDim)

/-- One step of the sub_matrices accumulation of _build_one_matrix, with
the element's elementary matrix supplied by `f`. -/
def keyStep (f : KeyObj → Mat) (sb : List (ℕ × Mat)) (k : KeyObj) : List (ℕ × Mat) :=
  subsSet sb k.system_id
    (match subsGet sb k.system_id with
     | some m => matmulMat m (f k)
     | none => f k)

/-- The same accumulation step projected onto a single subsystem id. -/
def gStep (f : KeyObj → Mat) (i : ℕ) (acc : Option Mat) (k : KeyObj) : Option Mat :=
  if k.system_id = i then
    some (match acc with | some m => matmulMat m (f k) | none => f k)
  else acc

end DynOps

namespace CustomBinaryOp

/-- An index pair of a combination rule (left operand index, right
operand index). -/
abbrev Pair := ℤ × ℤ

/-- One rule entry: a coefficient vector and the parallel list of index
pairs. -/
abbrev RuleEntry := List ℝ × List Pair

/-- A declarative combination rule: an ordered list of entries. -/
abbrev Rule := List RuleEntry

/-- Offsetting of an index pair by index_offset (applied to both
components). -/
def shiftPair (offset : ℤ) (p : Pair) : Pair := (p.1 + offset, p.2 + offset)

/-- Append a pair unless it is already present (keeps first-seen order). -/
def insertUnique (u : List Pair) (p : Pair) : List Pair :=
  if p ∈ u then u else u ++ [p]

/-- Modelled from the spec: the deduplication scan of
_compile_custom_operation_rule (whose source file
qiskit_dynamics/perturbation/custom_binary_op.py is not in the snapshot).
Scans all entries in order and collects the offset-shifted pairs in
first-encountered order. -/
def uniquePairs (rule : Rule) (offset : ℤ) : List Pair :=
  rule.foldl (fun u e => e.2.foldl (fun u p => insertUnique u (shiftPair offset p)) u) []

/-- Position of the first occurrence of a pair in the unique list (total;
callers only use it on members). -/
def idxOf (p : Pair) : List Pair → ℕ
  | [] => 0
  | q :: rest => if q = p then 0 else idxOf p rest + 1

/-- Modelled from the spec: _compile_custom_operation_rule.  Produces the
unique-pairs table padded with (-1, -1) rows up to unique_evaluation_len,
and one row per entry of (coefficient, index into the unique list) pairs,
padded with (0.0, -1) up to linear_combo_len (default: the longest row). -/
def compileRule (rule : Rule) (uniqueLen? comboLen? : Option ℕ) (offset : ℤ) :
    List Pair × List (List (ℝ × ℤ)) :=
  let u := uniquePairs rule offset
  let rows := rule.map (fun e =>
    (e.1.zip e.2).map (fun cp => (cp.1, (idxOf (shiftPair offset cp.2) u : ℤ))))
  let comboLen := comboLen?.getD (rows.foldl (fun m r => max m r.length) 0)
  let uniqueLen := uniqueLen?.getD u.length
  (u ++ List.replicate (uniqueLen - u.length) (-1, -1),
    rows.map (fun r => r ++ List.replicate (comboLen - r.length) ((0 : ℝ), (-1 : ℤ))))

/-- Modelled from the spec: evaluation of one compiled row of
_CustomBinaryOp against operand batches A and B: sum of
coeff * binary_op(A[unique[idx][0]], B[unique[idx][1]]) over the row,
skipping sentinel (-1) index slots. -/
def evalRow {M : Type} [AddCommMonoid M] [Module ℝ M] (u : List Pair)
    (op : M → M → M) (A B : ℤ → M) (row : List (ℝ × ℤ)) : M :=
  row.foldl (fun acc ci =>
    if ci.2 < 0 then acc
    else acc + ci.1 • op (A (u.getD ci.2.toNat (0, 0)).1) (B (u.getD ci.2.toNat (0, 0)).2)) 0

/-- Modelled from the spec: the k-th output term of _CustomBinaryOp
evaluated on operand batches A and B. -/
def evalCompiled {M : Type} [AddCommMonoid M] [Module ℝ M]
    (c : List Pair × List (List (ℝ × ℤ))) (op : M → M → M) (A B : ℤ → M)
    (k : ℕ) : M :=
  evalRow c.1 op A B (c.2.getD k [])

/-- The sum an original rule entry denotes: sum over m of
coeff[m] * binary_op(A[pairs[m][0]], B[pairs[m][1]]). -/
def entrySum {M : Type} [AddCommMonoid M] [Module ℝ M] (e : RuleEntry)
    (op : M → M → M) (A B : ℤ → M) : M :=
  (e.1.zip e.2).foldl (fun acc cp => acc + cp.1 • op (A cp.2.1) (B cp.2.2)) 0

/-- mult_rule1 of the test suite. -/
def rule1 : Rule :=
  [([1, 2, 3], [(0, 2), (1, 1), (2, 0)]),
   ([1], [(0, 2)]),
   ([3], [(1, 1)])]

end CustomBinaryOp

namespace CustomBinaryOp

/-- Inserting a pair makes it a member. -/
theorem mem_insertUnique_self (u : List Pair) (p : Pair) : p ∈ insertUnique u p := by
  unfold insertUnique
  by_cases h : p ∈ u <;> simp [h]

/-- Inserting preserves existing members. -/
theorem mem_insertUnique_of_mem {u : List Pair} {q : Pair} (p : Pair)
    (h : q ∈ u) : q ∈ insertUnique u p := by
  unfold insertUnique
  by_cases hp : p ∈ u <;> simp [hp, h]

/-- The inner deduplication fold preserves existing members. -/
theorem mem_innerFold_of_mem {u : List Pair} {q : Pair} (o : ℤ) (l : List Pair)
    (h : q ∈ u) : q ∈ l.foldl (fun u p => insertUnique u (shiftPair o p)) u := by
  induction l generalizing u with
  | nil => exact h
  | cons p rest ih => exact ih (mem_insertUnique_of_mem _ h)

/-- The inner deduplication fold contains every shifted pair of its list. -/
theorem mem_innerFold {u : List Pair} {p : Pair} (o : ℤ) {l : List Pair}
    (h : p ∈ l) : shiftPair o p ∈ l.foldl (fun u p => insertUnique u (shiftPair o p)) u := by
  induction l generalizing u with
  | nil => cases h
  | cons p0 rest ih =>
    rcases List.mem_cons.mp h with h0 | h1
    · subst h0
      exact mem_innerFold_of_mem o rest (mem_insertUnique_self _ _)
    · exact ih h1

/-- The outer deduplication fold preserves existing members. -/
theorem mem_outerFold_of_mem {u : List Pair} {q : Pair} (o : ℤ) (rl : Rule)
    (h : q ∈ u) :
    q ∈ rl.foldl (fun u e => e.2.foldl (fun u p => insertUnique u (shiftPair o p)) u) u := by
  induction rl generalizing u with
  | nil => exact h
  | cons e rest ih => exact ih (mem_innerFold_of_mem o e.2 h)

/-- Every shifted index pair of every rule entry appears in the unique
pair list. -/
theorem mem_uniquePairs {rl : Rule} {e : RuleEntry} {p : Pair} (o : ℤ)
    (he : e ∈ rl) (hp : p ∈ e.2) : shiftPair o p ∈ uniquePairs rl o := by
  unfold uniquePairs
  generalize ([] : List Pair) = u
  induction rl generalizing u with
  | nil => cases he
  | cons e0 rest ih =>
    rw [List.foldl_cons]
    rcases List.mem_cons.mp he with h0 | h1
    · subst h0
      exact mem_outerFold_of_mem o rest (mem_innerFold o hp)
    · exact ih h1 _

/-- Looking a member pair up at its recorded index returns it. -/
theorem getD_idxOf {u : List Pair} {p : Pair} (h : p ∈ u) :
    u.getD (idxOf p u) (0, 0) = p := by
  induction u with
  | nil => cases h
  | cons q rest ih =>
    by_cases hq : q = p
    · simp only [idxOf, if_pos hq, List.getD_cons_zero]
      exact hq
    · simp only [idxOf, if_neg hq, List.getD_cons_succ]
      rcases List.mem_cons.mp h with h0 | h1
      · exact absurd h0.symm hq
      · exact ih h1

/-- Inserting preserves freedom from duplicates. -/
theorem nodup_insertUnique {u : List Pair} (p : Pair) (h : u.Nodup) :
    (insertUnique u p).Nodup := by
  unfold insertUnique
  by_cases hp : p ∈ u
  · simpa [hp] using h
  · simp [hp, List.nodup_append, h, hp]

/-- The unique pair table is duplicate-free. -/
theorem nodup_uniquePairs (rl : Rule) (o : ℤ) : (uniquePairs rl o).Nodup := by
  unfold uniquePairs
  have inner : ∀ (l : List Pair) (u : List Pair), u.Nodup →
      (l.foldl (fun u p => insertUnique u (shiftPair o p)) u).Nodup := by
    intro l
    induction l with
    | nil => intro u hu; exact hu
    | cons p rest ih => intro u hu; exact ih _ (nodup_insertUnique _ hu)
  have outer : ∀ (rl : Rule) (u : List Pair), u.Nodup →
      (rl.foldl (fun u e => e.2.foldl (fun u p => insertUnique u (shiftPair o p)) u) u).Nodup := by
    intro rl
    induction rl with
    | nil => intro u hu; exact hu
    | cons e rest ih => intro u hu; exact ih _ (inner _ _ hu)
  exact outer rl [] List.nodup_nil

/-- Shifting by the default offset 0 is the identity. -/
theorem shiftPair_zero (p : Pair) : shiftPair 0 p = p := by
  simp [shiftPair]

section EvalLemmas

variable {M : Type} [AddCommMonoid M] [Module ℝ M]
variable (u : List Pair) (op : M → M → M) (A B : ℤ → M)

/-- Padding slots (coefficient 0, sentinel index -1) contribute nothing to
the evaluation fold. -/
theorem foldl_pad (n : ℕ) (acc : M) :
    (List.replicate n ((0 : ℝ), (-1 : ℤ))).foldl (fun acc ci =>
      if ci.2 < 0 then acc
      else acc + ci.1 • op (A (u.getD ci.2.toNat (0, 0)).1) (B (u.getD ci.2.toNat (0, 0)).2)) acc = acc := by
  induction n with
  | zero => rfl
  | succ m ih =>
    rw [List.replicate_succ, List.foldl_cons]
    simpa using ih

/-- Evaluating the index-compiled row reproduces the original
coefficient/pair fold, provided every pair is in the unique table. -/
theorem foldl_mapped (z : List (ℝ × Pair)) (hz : ∀ cp ∈ z, cp.2 ∈ u) (acc : M) :
    (z.map (fun cp => (cp.1, (idxOf cp.2 u : ℤ)))).foldl (fun acc ci =>
      if ci.2 < 0 then acc
      else acc + ci.1 • op (A (u.getD ci.2.toNat (0, 0)).1) (B (u.getD ci.2.toNat (0, 0)).2)) acc
    = z.foldl (fun acc cp => acc + cp.1 • op (A cp.2.1) (B cp.2.2)) acc := by
  induction z generalizing acc with
  | nil => rfl
  | cons cp rest ih =>
    rw [List.map_cons, List.foldl_cons, List.foldl_cons]
    have hmem : cp.2 ∈ u := hz cp (List.mem_cons_self _ _)
    have hneg : ¬ ((idxOf cp.2 u : ℤ) < 0) := not_lt.mpr (Int.natCast_nonneg _)
    rw [if_neg hneg]
    have htn : ((idxOf cp.2 u : ℤ)).toNat = idxOf cp.2 u := Int.toNat_natCast _
    rw [htn, getD_idxOf hmem]
    exact ih (fun q hq => hz q (List.mem_cons_of_mem _ hq)) _

end EvalLemmas

/-- Evaluating a rule compiled with default lengths and offset reproduces,
for every output term, the sum the original entry denotes (out-of-range
terms give the empty sum on both sides). -/
theorem evalCompiled_correct {M : Type} [AddCommMonoid M] [Module ℝ M]
    (rl : Rule) (op : M → M → M) (A B : ℤ → M) (k : ℕ) :
    evalCompiled (compileRule rl none none 0) op A B k
      = entrySum (rl.getD k ([], [])) op A B := by
  unfold evalCompiled compileRule
  simp only [Option.getD_none, shiftPair_zero, Nat.sub_self, List.replicate_zero,
    List.append_nil]
  by_cases hk : k < rl.length
  · have h1 : ((rl.map (fun e => (e.1.zip e.2).map
        (fun cp => (cp.1, (idxOf cp.2 (uniquePairs rl 0) : ℤ))))).map
          (fun r => r ++ List.replicate
            ((rl.map (fun e => (e.1.zip e.2).map
              (fun cp => (cp.1, (idxOf cp.2 (uniquePairs rl 0) : ℤ))))).foldl
                (fun m r => max m r.length) 0 - r.length) ((0 : ℝ), (-1 : ℤ)))).getD k []
      = ((rl[k].1.zip rl[k].2).map (fun cp => (cp.1, (idxOf cp.2 (uniquePairs rl 0) : ℤ))))
        ++ List.replicate
            ((rl.map (fun e => (e.1.zip e.2).map
              (fun cp => (cp.1, (idxOf cp.2 (uniquePairs rl 0) : ℤ))))).foldl
                (fun m r => max m r.length) 0
              - ((rl[k].1.zip rl[k].2).map (fun cp => (cp.1, (idxOf cp.2 (uniquePairs rl 0) : ℤ)))).length)
            ((0 : ℝ), (-1 : ℤ)) := by
      rw [List.getD_eq_getElem?_getD, List.getElem?_map, List.getElem?_map,
        List.getElem?_eq_getElem hk]
      rfl
    rw [h1, List.getD_eq_getElem?_getD, List.getElem?_eq_getElem hk]
    unfold evalRow
    rw [List.foldl_append, foldl_pad, foldl_mapped]
    · rfl
    · intro cp hcp
      have h2 : cp.2 ∈ rl[k].2 := (List.of_mem_zip hcp).2
      have h3 : rl[k] ∈ rl := List.getElem_mem hk
      have := mem_uniquePairs 0 h3 h2
      rwa [shiftPair_zero] at this
  · have hk2 : rl.length ≤ k := le_of_not_lt hk
    rw [List.getD_eq_default, List.getD_eq_default]
    · rfl
    · exact hk2
    · simpa using hk2

end CustomBinaryOp

namespace DynOps

theorem getOperatorMatrix_dim {t : String} {d : ℕ} {M : Mat}
    (h : getOperatorMatrix t d = .ok M) : M.dim = d := by
  unfold getOperatorMatrix at h
  split_ifs at h with h1 h2 h3 h4 h5 h6 h7 h8 h9 h10
  all_goals injection h with h
  all_goals subst h
  all_goals first | rfl | exact h2.symm

theorem find?_replace (sb : List (ℕ × Mat)) (j i : ℕ) (m : Mat) :
    ((sb.map (fun p => if p.1 = j then (j, m) else p)).find? (fun p => p.1 = i))
    = if j = i then (sb.find? (fun p => p.1 = j)).map (fun _ => (j, m))
      else sb.find? (fun p => p.1 = i) := by
  induction sb with
  | nil => by_cases hji : j = i <;> simp [hji]
  | cons p rest ih =>
    rw [List.map_cons]
    by_cases hpj : p.1 = j
    · by_cases hji : j = i
      · rw [if_pos hpj, if_pos hji,
          List.find?_cons_of_pos _ (by simp [hji]),
          List.find?_cons_of_pos _ (by simp [hpj])]
        rfl
      · rw [if_pos hpj, if_neg hji,
          List.find?_cons_of_neg _ (by simp [hji]),
          List.find?_cons_of_neg _ (by simp [hpj, hji]),
          ih, if_neg hji]
    · by_cases hpi : p.1 = i
      · have hji : ¬ j = i := fun h => hpj (hpi.trans h.symm)
        rw [if_neg hpj, if_neg hji,
          List.find?_cons_of_pos _ (by simp [hpi]),
          List.find?_cons_of_pos _ (by simp [hpi])]
      · rw [if_neg hpj]
        by_cases hji : j = i
        · rw [if_pos hji,
            List.find?_cons_of_neg _ (by simp [hpi]),
            List.find?_cons_of_neg _ (by simp [hpj]),
            ih, if_pos hji]
        · rw [if_neg hji,
            List.find?_cons_of_neg _ (by simp [hpi]),
            List.find?_cons_of_neg _ (by simp [hpi]),
            ih, if_neg hji]

theorem subsGet_subsSet (sb : List (ℕ × Mat)) (j : ℕ) (m : Mat) (i : ℕ) :
    subsGet (subsSet sb j m) i = if j = i then some m else subsGet sb i := by
  unfold subsGet subsSet
  by_cases hex : (sb.find? (fun p => p.1 = j)).isSome
  · rw [if_pos hex, find?_replace]
    by_cases hji : j = i
    · rw [if_pos hji, if_pos hji]
      rcases Option.isSome_iff_exists.mp hex with ⟨q, hq⟩
      rw [hq]
      rfl
    · rw [if_neg hji, if_neg hji]
  · rw [if_neg hex, List.find?_append]
    by_cases hji : j = i
    · subst hji
      have hnone : sb.find? (fun p => p.1 = j) = none :=
        Option.not_isSome_iff_eq_none.mp hex
      simp [hnone]
    · have h1 : ([(j, m)].find? (fun p => p.1 = i)) = none := by
        simp [List.find?, hji]
      rw [h1, if_neg hji]
      simp

end DynOps
namespace DynOps

theorem identityLoop_all2 {l : List ℕ} (h : ∀ x ∈ l, x = 2) :
    identityLoop l = .ok (l.map identMat) := by
  induction l with
  | nil => rfl
  | cons d rest ih =>
    have hd : d = 2 := h d (List.mem_cons_self _ _)
    subst hd
    unfold identityLoop
    rw [ih (fun x hx => h x (List.mem_cons_of_mem _ hx))]
    rfl

theorem keyLoop_ok {S : List (ℕ × ℕ)} (f : KeyObj → Mat) (key : List KeyObj)
    (sb : List (ℕ × Mat))
    (h : ∀ k ∈ key, subsystemsGet S k.system_id = some 2 ∧
      getOperatorMatrix k.s_type_unique 2 = .ok (f k)) :
    keyLoop S key sb = .ok (key.foldl (keyStep f) sb) := by
  induction key generalizing sb with
  | nil => rfl
  | cons k rest ih =>
    obtain ⟨h1, h2⟩ := h k (List.mem_cons_self _ _)
    unfold keyLoop
    rw [List.foldl_cons]
    simp only [h1, h2]
    exact ih _ (fun q hq => h q (List.mem_cons_of_mem _ hq))

theorem subsGet_foldl_keyStep (f : KeyObj → Mat) (key : List KeyObj)
    (sb : List (ℕ × Mat)) (i : ℕ) :
    subsGet (key.foldl (keyStep f) sb) i = key.foldl (gStep f i) (subsGet sb i) := by
  induction key generalizing sb with
  | nil => rfl
  | cons k rest ih =>
    rw [List.foldl_cons, List.foldl_cons, ih]
    congr 1
    unfold keyStep gStep
    rw [subsGet_subsSet]
    by_cases hk : k.system_id = i
    · rw [if_pos hk, if_pos hk, hk]
    · rw [if_neg hk, if_neg hk]

theorem foldl_gStep_filter (f : KeyObj → Mat) (i : ℕ) (key : List KeyObj)
    (acc : Option Mat) :
    key.foldl (gStep f i) acc
      = (key.filter (fun k => k.system_id = i)).foldl
          (fun acc k => some (match acc with | some m => matmulMat m (f k) | none => f k)) acc := by
  induction key generalizing acc with
  | nil => rfl
  | cons k rest ih =>
    rw [List.foldl_cons]
    by_cases hk : k.system_id = i
    · rw [List.filter_cons_of_pos (by simp [hk]), List.foldl_cons, ih]
      unfold gStep
      rw [if_pos hk]
    · rw [List.filter_cons_of_neg (by simp [hk]), ih]
      unfold gStep
      rw [if_neg hk]

theorem foldl_someStep_some (f : KeyObj → Mat) (fl : List KeyObj) (m : Mat) :
    fl.foldl (fun acc k => some (match acc with | some m => matmulMat m (f k) | none => f k)) (some m)
      = some ((fl.map f).foldl matmulMat m) := by
  induction fl generalizing m with
  | nil => rfl
  | cons k rest ih =>
    rw [List.foldl_cons, List.map_cons, List.foldl_cons]
    exact ih _

theorem subsGet_keyFold_grouped (f : KeyObj → Mat) (key : List KeyObj) (i : ℕ) :
    subsGet (key.foldl (keyStep f) []) i = groupedMats key f i := by
  rw [subsGet_foldl_keyStep]
  have h0 : subsGet [] i = none := rfl
  rw [h0, foldl_gStep_filter]
  unfold groupedMats
  cases hfl : key.filter (fun k => k.system_id = i) with
  | nil => rfl
  | cons k0 rest =>
    rw [List.foldl_cons, List.map_cons]
    exact foldl_someStep_some f rest (f k0)

theorem assembleKron_cons (subs : List (ℕ × Mat)) (p0 : ℕ × Mat)
    (rest : List (ℕ × Mat)) :
    assembleKron subs (p0 :: rest)
      = rest.foldl (fun acc p => kronMat acc ((subsGet subs p.1).getD p.2))
          ((subsGet subs p0.1).getD p0.2) := rfl

theorem kronFold_cons (m : Mat) (ms : List Mat) :
    kronFold (m :: ms) = ms.foldl kronMat m := rfl

theorem assembleKron_spec (S : List (ℕ × ℕ)) (key : List KeyObj)
    (f : KeyObj → Mat) (hS : S ≠ []) :
    assembleKron (key.foldl (keyStep f) []) (S.map (fun p => (p.1, identMat p.2)))
      = specTerm S key f := by
  cases S with
  | nil => exact absurd rfl hS
  | cons q rest =>
    unfold specTerm
    rw [List.map_cons, List.map_cons, assembleKron_cons, kronFold_cons,
      List.foldl_map, List.foldl_map]
    simp only [subsGet_keyFold_grouped]

end DynOps
namespace DynOps

theorem addMat_assoc (A B C : Mat) : addMat (addMat A B) C = addMat A (addMat B C) := by
  apply Mat.ext_dim
  · rfl
  · funext i j
    simp [addMat, add_assoc]

theorem addMat_zeros_right (A : Mat) (n : ℕ) : addMat A (zerosMat n) = A := by
  apply Mat.ext_dim
  · rfl
  · funext i j
    simp [addMat, zerosMat]

theorem addMat_zeros_left (A : Mat) (n : ℕ) (h : n = A.dim) :
    addMat (zerosMat n) A = A := by
  apply Mat.ext_dim
  · exact h
  · funext i j
    simp [addMat, zerosMat]

theorem smulMat_zeros (z : ℂ) (n : ℕ) : smulMat z (zerosMat n) = zerosMat n := by
  apply Mat.ext_dim
  · rfl
  · funext i j
    simp [smulMat, zerosMat]

theorem smulMat_addMat (z val : ℂ) (m K : Mat) :
    addMat (smulMat z m) (smulMat (val * z) K) = smulMat z (addMat m (smulMat val K)) := by
  apply Mat.ext_dim
  · rfl
  · funext i j
    simp [addMat, smulMat]
    ring

theorem bomLoop_ok {S : List (ℕ × ℕ)} (f : KeyObj → Mat) (hS : S ≠ [])
    (d : PyDict) (m : Mat)
    (h : ∀ e ∈ d, ∀ k ∈ e.1, subsystemsGet S k.system_id = some 2 ∧
      getOperatorMatrix k.s_type_unique 2 = .ok (f k)) :
    bomLoop S (S.map (fun p => (p.1, identMat p.2))) d m
      = .ok (d.foldl (fun acc e => addMat acc (smulMat e.2 (specTerm S e.1 f))) m) := by
  induction d generalizing m with
  | nil => rfl
  | cons e rest ih =>
    obtain ⟨key, val⟩ := e
    unfold bomLoop
    rw [List.foldl_cons]
    simp only [keyLoop_ok f key [] (h (key, val) (List.mem_cons_self _ _))]
    rw [assembleKron_spec S key f hS]
    exact ih _ (fun q hq => h q (List.mem_cons_of_mem _ hq))

theorem foldl_matmul_dim (ms : List Mat) (m : Mat) :
    (ms.foldl matmulMat m).dim = m.dim := by
  induction ms generalizing m with
  | nil => rfl
  | cons x rest ih => rw [List.foldl_cons]; exact ih _

theorem groupedMats_dim {key : List KeyObj} {f : KeyObj → Mat} {i : ℕ} {m : Mat}
    (hf : ∀ k ∈ key, (f k).dim = 2) (h : groupedMats key f i = some m) :
    m.dim = 2 := by
  unfold groupedMats at h
  cases hfl : key.filter (fun k => k.system_id = i) with
  | nil => rw [hfl] at h; cases h
  | cons k0 rest =>
    rw [hfl, List.map_cons] at h
    injection h with h
    subst h
    rw [foldl_matmul_dim]
    exact hf k0 (List.mem_of_mem_filter (hfl ▸ List.mem_cons_self _ _))

theorem foldl_kron_dim (ms : List Mat) (m : Mat) :
    (ms.foldl kronMat m).dim = m.dim * (ms.map Mat.dim).prod := by
  induction ms generalizing m with
  | nil => simp
  | cons x rest ih =>
    rw [List.foldl_cons, ih, List.map_cons, List.prod_cons]
    show (kronMat m x).dim * _ = _
    unfold kronMat
    ring

theorem specTerm_dim2 (S : List (ℕ × ℕ)) (key : List KeyObj) (f : KeyObj → Mat)
    (hS2 : ∀ p ∈ S, p.2 = 2) (hf : ∀ k ∈ key, (f k).dim = 2) :
    (specTerm S key f).dim = 2 ^ S.length := by
  have hpick : ∀ p ∈ S, ((groupedMats key f p.1).getD (identMat p.2)).dim = 2 := by
    intro p hp
    cases hg : groupedMats key f p.1 with
    | none =>
      show (identMat p.2).dim = 2
      exact hS2 p hp
    | some m =>
      exact groupedMats_dim hf hg
  unfold specTerm
  cases S with
  | nil => rfl
  | cons q rest =>
    rw [List.map_cons, kronFold_cons, foldl_kron_dim,
      hpick q (List.mem_cons_self _ _)]
    have hrest : (rest.map (fun p => (groupedMats key f p.1).getD (identMat p.2))).map Mat.dim
        = rest.map (fun _ => 2) := by
      rw [List.map_map]
      apply List.map_congr_left
      intro p hp
      exact hpick p (List.mem_cons_of_mem _ hp)
    rw [hrest]
    simp [List.prod_replicate, pow_succ, List.map_const]
    ring

theorem totalDim_all2 (l : List ℕ) (h : ∀ x ∈ l, x = 2) (acc : ℕ) :
    l.foldl (fun acc d => if 0 < d then acc * d else acc) acc = acc * 2 ^ l.length := by
  induction l generalizing acc with
  | nil => simp
  | cons x rest ih =>
    have hx : x = 2 := h x (List.mem_cons_self _ _)
    subst hx
    rw [List.foldl_cons, if_pos (by norm_num), ih (fun y hy => h y (List.mem_cons_of_mem _ hy))]
    rw [List.length_cons, pow_succ]
    ring

theorem foldl_addMat (N : ℕ) (l : List Mat) (m : Mat) :
    l.foldl addMat m = addMat m (l.foldr addMat (zerosMat N)) := by
  induction l generalizing m with
  | nil => rw [List.foldl_nil, List.foldr_nil, addMat_zeros_right]
  | cons a rest ih =>
    rw [List.foldl_cons, List.foldr_cons, ih, addMat_assoc]

theorem foldr_addMat_dim {N : ℕ} {l : List Mat} (h : ∀ x ∈ l, x.dim = N) :
    (l.foldr addMat (zerosMat N)).dim = N := by
  induction l with
  | nil => rfl
  | cons a rest ih =>
    rw [List.foldr_cons]
    exact h a (List.mem_cons_self _ _)

theorem foldl_add_to_specSum (S : List (ℕ × ℕ)) (f : KeyObj → Mat) (N : ℕ)
    (d : PyDict) (hdim : ∀ e ∈ d, (specTerm S e.1 f).dim = N) :
    d.foldl (fun acc e => addMat acc (smulMat e.2 (specTerm S e.1 f))) (zerosMat N)
      = specSum S f N d := by
  have h1 : d.foldl (fun acc e => addMat acc (smulMat e.2 (specTerm S e.1 f))) (zerosMat N)
      = (d.map (fun e => smulMat e.2 (specTerm S e.1 f))).foldl addMat (zerosMat N) := by
    rw [List.foldl_map]
  rw [h1, foldl_addMat N, addMat_zeros_left]
  · rfl
  · apply Eq.symm
    apply foldr_addMat_dim
    intro x hx
    rcases List.mem_map.mp hx with ⟨e, he, hxe⟩
    subst hxe
    exact hdim e he

end DynOps
namespace DynOps

theorem buildMatrices_dict_spec (S : List (ℕ × ℕ)) (d : PyDict) (f : KeyObj → Mat)
    (hS : S ≠ [])
    (hS2 : ∀ p ∈ S, p.2 = 2)
    (hkeys : ∀ e ∈ d, ∀ k ∈ e.1, subsystemsGet S k.system_id = some 2 ∧
      getOperatorMatrix k.s_type_unique 2 = .ok (f k)) :
    buildMatrices (.single (.dict d)) S = .ok (.mat (specSum S f (2 ^ S.length) d)) := by
  have hlen : ¬ (S.length = 0) := by simpa [List.length_eq_zero] using hS
  have hdims : ∀ x ∈ S.map (fun p => p.2), x = 2 := by
    intro x hx
    rcases List.mem_map.mp hx with ⟨p, hp, hpx⟩
    exact hpx ▸ hS2 p hp
  have hid : identityLoop (S.map (fun p => p.2)) = .ok ((S.map (fun p => p.2)).map identMat) :=
    identityLoop_all2 hdims
  have htot : (S.map (fun p => p.2)).foldl (fun acc d => if 0 < d then acc * d else acc) 1
      = 2 ^ S.length := by
    rw [totalDim_all2 _ hdims, one_mul, List.length_map]
  have hzip : (S.map (fun p => p.1)).zip ((S.map (fun p => p.2)).map identMat)
      = S.map (fun p => (p.1, identMat p.2)) := by
    rw [List.map_map]
    exact List.zip_map' _ _ _
  have hfd : ∀ k2 ∈ d, ∀ k ∈ k2.1, (f k).dim = 2 := by
    intro e he k hk
    exact getOperatorMatrix_dim (hkeys e he k hk).2
  have hterm : ∀ e ∈ d, (specTerm S e.1 f).dim = 2 ^ S.length :=
    fun e he => specTerm_dim2 S e.1 f hS2 (hfd e he)
  unfold buildMatrices
  rw [if_neg hlen]
  simp only [validateOps]
  rw [hid]
  simp only [hzip]
  unfold buildAll
  unfold buildElem
  unfold buildOneMatrix
  unfold getZerosMatrix
  rw [htot]
  have hone : ¬ ([OpsElem.dict d].length = 0) := by simp
  rw [if_neg hone]
  simp only [if_true]
  simp only [bomLoop_ok f hS d (zerosMat (2 ^ S.length)) hkeys]
  rw [foldl_add_to_specSum S f (2 ^ S.length) d hterm]
  rfl

end DynOps
namespace DynOps

theorem bomLoop_scale (S : List (ℕ × ℕ)) (idPairs : List (ℕ × Mat)) (z : ℂ)
    (d : PyDict) (m : Mat) :
    bomLoop S idPairs (scaleDict z d) (smulMat z m)
      = (bomLoop S idPairs d m).map (smulMat z) := by
  induction d generalizing m with
  | nil => rfl
  | cons e rest ih =>
    obtain ⟨key, val⟩ := e
    show bomLoop S idPairs ((key, val * z) :: scaleDict z rest) (smulMat z m) = _
    unfold bomLoop
    cases hk : keyLoop S key [] with
    | error err => rfl
    | ok subs =>
      show bomLoop S idPairs (scaleDict z rest)
          (addMat (smulMat z m) (smulMat (val * z) (assembleKron subs idPairs)))
        = Except.map (smulMat z)
            (bomLoop S idPairs rest (addMat m (smulMat val (assembleKron subs idPairs))))
      rw [smulMat_addMat]
      exact ih _

theorem buildOneDict_smul (a : DynOp) (z : ℂ) (n : ℕ) :
    buildOneDict (DynOp.smul a z) n
      = (scaleDict z (buildOneDict a n).1, (buildOneDict a n).2) := by
  cases hda : buildOneDict a n with
  | mk da n1 =>
    unfold buildOneDict
    rw [hda]
    rfl

theorem buildMatrices_smul (a : DynOp) (z : ℂ) (S : List (ℕ × ℕ)) :
    buildMatrices (.single (.node (.smul a z))) S
      = (buildMatrices (.single (.node a)) S).map (scaleBuildOut z) := by
  by_cases hlen : S.length = 0
  · unfold buildMatrices
    rw [if_pos hlen, if_pos hlen]
    rfl
  · unfold buildMatrices
    rw [if_neg hlen, if_neg hlen]
    have hone : ¬ ([OpsElem.node (DynOp.smul a z)].length = 0) := by simp
    have hone2 : ¬ ([OpsElem.node a].length = 0) := by simp
    rw [if_neg hone, if_neg hone2]
    simp only [validateOps, if_false]
    have hdicts : (buildDictionaries (nodesOf [OpsElem.node (DynOp.smul a z)]) 0).1
        = [scaleDict z (buildOneDict a 0).1] := by
      show (buildDictionaries [DynOp.smul a z] 0).1 = _
      cases hda : buildOneDict a 0 with
      | mk da n1 =>
        unfold buildDictionaries
        rw [buildOneDict_smul, hda]
        rfl
    have hdicts2 : (buildDictionaries (nodesOf [OpsElem.node a]) 0).1
        = [(buildOneDict a 0).1] := by
      show (buildDictionaries [a] 0).1 = _
      cases hda : buildOneDict a 0 with
      | mk da n1 =>
        unfold buildDictionaries
        rw [hda]
        rfl
    rw [hdicts, hdicts2]
    cases hil : identityLoop (S.map (fun p => p.2)) with
    | error e => rfl
    | ok idMats =>
      simp only [List.map_cons, List.map_nil]
      unfold buildAll buildElem buildOneMatrix getZerosMatrix
      dsimp only
      have hz : zerosMat (List.foldl (fun acc d => if 0 < d then acc * d else acc) 1
          (List.map (fun p => p.2) S))
          = smulMat z (zerosMat (List.foldl (fun acc d => if 0 < d then acc * d else acc) 1
            (List.map (fun p => p.2) S))) := (smulMat_zeros _ _).symm
      conv_lhs => rw [hz]
      rw [bomLoop_scale]
      cases hb : bomLoop S ((S.map (fun p => p.1)).zip idMats) (buildOneDict a 0).1
          (zerosMat (List.foldl (fun acc d => if 0 < d then acc * d else acc) 1
            (List.map (fun p => p.2) S))) with
      | error e => rfl
      | ok m => rfl

end DynOps
namespace DynOps

theorem keyLoop_missing {S : List (ℕ × ℕ)} (t1 : List KeyObj) (bad : KeyObj)
    (t2 : List KeyObj)
    (h1 : ∀ k ∈ t1, subsystemsGet S k.system_id = some 2 ∧
      ∃ M, getOperatorMatrix k.s_type_unique 2 = .ok M)
    (hbad : subsystemsGet S bad.system_id = none) (sb : List (ℕ × Mat)) :
    keyLoop S (t1 ++ bad :: t2) sb
      = .error ⟨"Exception", missingIdMsg bad.system_id⟩ := by
  induction t1 generalizing sb with
  | nil =>
    unfold keyLoop
    rw [List.nil_append]
    simp only [hbad]
  | cons k rest ih =>
    obtain ⟨hk1, M, hk2⟩ := h1 k (List.mem_cons_self _ _)
    rw [List.cons_append]
    unfold keyLoop
    simp only [hk1, hk2]
    exact ih (fun q hq => h1 q (List.mem_cons_of_mem _ hq)) _

theorem buildMatrices_missing_id (S : List (ℕ × ℕ)) (t1 : List KeyObj)
    (bad : KeyObj) (t2 : List KeyObj) (c : ℂ)
    (hS2 : ∀ p ∈ S, p.2 = 2)
    (h1 : ∀ k ∈ t1, subsystemsGet S k.system_id = some 2 ∧
      ∃ M, getOperatorMatrix k.s_type_unique 2 = .ok M)
    (hbad : subsystemsGet S bad.system_id = none) (hS : S ≠ []) :
    buildMatrices (.single (.dict [(t1 ++ bad :: t2, c)])) S
      = .error ⟨"Exception", missingIdMsg bad.system_id⟩ := by
  have hlen : ¬ (S.length = 0) := by simpa [List.length_eq_zero] using hS
  have hdims : ∀ x ∈ S.map (fun p => p.2), x = 2 := by
    intro x hx
    rcases List.mem_map.mp hx with ⟨p, hp, hpx⟩
    exact hpx ▸ hS2 p hp
  have hid : identityLoop (S.map (fun p => p.2)) = .ok ((S.map (fun p => p.2)).map identMat) :=
    identityLoop_all2 hdims
  unfold buildMatrices
  rw [if_neg hlen]
  have hone : ¬ ([OpsElem.dict [(t1 ++ bad :: t2, c)]].length = 0) := by simp
  rw [if_neg hone]
  simp only [validateOps]
  rw [hid]
  unfold buildAll buildElem buildOneMatrix getZerosMatrix
  dsimp only
  unfold bomLoop
  rw [keyLoop_missing t1 bad t2 h1 hbad]

end DynOps
namespace DynOps

/-- C1: the claim says flatten(a + b) merges the summands' dictionaries with
coefficients added for value-equal keys, so flatten(X_0 + X_0) would be a
single key with coefficient 2.  Evaluating the code at that input instead
yields two separate entries with value-equal key tuples and coefficient 1
each: DynamicalOperatorKey defines __hash__ but not __eq__, so the dict
merge compares keys by object identity and never merges distinct key
objects. -/
theorem c1_flatten_sum_not_merged :
    (buildOneDict (.sum (Sx 0) (Sx 0)) 0).1
      = [([⟨0, 0, "x"⟩], 1), ([⟨1, 0, "x"⟩], 1)]
    ∧ ((buildOneDict (.sum (Sx 0) (Sx 0)) 0).1).length = 2
    ∧ valueKey [⟨0, 0, "x"⟩] = valueKey [⟨1, 0, "x"⟩] := by
  refine ⟨?_, rfl, by decide⟩
  have h : (buildOneDict (.sum (Sx 0) (Sx 0)) 0).1
      = [([⟨0, 0, "x"⟩], 1 + 0), ([⟨1, 0, "x"⟩], 1 + 0)] := rfl
  rw [h]
  norm_num

/-- C2: the claim says flatten(a * b) produces one entry per pair of keys of
flatten(a) and flatten(b) (here 2 * 1 = 2 entries for (X_0 + Y_0) * Z_1).
Evaluating the code at that input instead yields a single entry whose key
concatenates the key elements of every entry of both operand dicts
(X_0, Y_0, Z_1) with coefficient 1: the product branch does not distribute
over multi-entry dicts. -/
theorem c2_flatten_prod_collapses_sum :
    (buildOneDict (.prod (.sum (Sx 0) (Sy 0)) (Sz 1)) 0).1
      = [([⟨0, 0, "x"⟩, ⟨1, 0, "y"⟩, ⟨2, 1, "z"⟩], 1)]
    ∧ ((buildOneDict (.sum (Sx 0) (Sy 0)) 0).1).length = 2
    ∧ ((buildOneDict (Sz 1) 2).1).length = 1
    ∧ ((buildOneDict (.prod (.sum (Sx 0) (Sy 0)) (Sz 1)) 0).1).length = 1 := by
  refine ⟨?_, rfl, rfl, rfl⟩
  have h : (buildOneDict (.prod (.sum (Sx 0) (Sy 0)) (Sz 1)) 0).1
      = [([⟨0, 0, "x"⟩, ⟨1, 0, "y"⟩, ⟨2, 1, "z"⟩], ((1 * (1 + 0)) * (1 + 0)) * 1)] := rfl
  rw [h]
  norm_num

/-- C4: for every normal-form dict over an all-2-dimensional subsystem map
whose key lookups and operator realizations succeed, build_matrices
returns the sum over terms of the coefficient times the Kronecker product
across the map's id order of the per-subsystem grouped matrices, with the
identity substituted for subsystems the term does not touch; concretely,
with subsystem map {0:2, 1:2}, realize(Sx(0)) = kron(X, I2) and
realize(Sz(1)) = kron(I2, Z). -/
theorem c4_realize_kron_assembly :
    (∀ (S : List (ℕ × ℕ)) (d : PyDict) (f : KeyObj → Mat),
      S ≠ [] → (∀ p ∈ S, p.2 = 2) →
      (∀ e ∈ d, ∀ k ∈ e.1, subsystemsGet S k.system_id = some 2 ∧
        getOperatorMatrix k.s_type_unique 2 = .ok (f k)) →
      buildMatrices (.single (.dict d)) S = .ok (.mat (specSum S f (2 ^ S.length) d)))
    ∧ buildMatrices (.single (.node (Sx 0))) [(0, 2), (1, 2)]
        = .ok (.mat (kronMat (mat2 0 1 1 0) (identMat 2)))
    ∧ buildMatrices (.single (.node (Sz 1))) [(0, 2), (1, 2)]
        = .ok (.mat (kronMat (identMat 2) (mat2 1 0 0 (-1)))) := by
  refine ⟨fun S d f hS hS2 hkeys => buildMatrices_dict_spec S d f hS hS2 hkeys, ?_, ?_⟩
  · have h : buildMatrices (.single (.node (Sx 0))) [(0, 2), (1, 2)]
        = .ok (.mat (addMat (zerosMat 4) (smulMat 1 (kronMat (mat2 0 1 1 0) (identMat 2))))) := rfl
    rw [h]
    congr 2
    apply Mat.ext_dim
    · rfl
    · funext i j
      simp [addMat, smulMat, zerosMat]
  · have h : buildMatrices (.single (.node (Sz 1))) [(0, 2), (1, 2)]
        = .ok (.mat (addMat (zerosMat 4) (smulMat 1 (kronMat (identMat 2) (mat2 1 0 0 (-1)))))) := rfl
    rw [h]
    congr 2
    apply Mat.ext_dim
    · rfl
    · funext i j
      simp [addMat, smulMat, zerosMat]

/-- Witness for C4 at the concrete input S = {0:2, 1:2},
d = {(X_0,): 1}, f = constant X matrix. -/
theorem c4_realize_kron_assembly_witness :
    (([((0 : ℕ), (2 : ℕ)), (1, 2)] : List (ℕ × ℕ)) ≠ [])
    ∧ (∀ p ∈ ([((0 : ℕ), (2 : ℕ)), (1, 2)] : List (ℕ × ℕ)), p.2 = 2)
    ∧ (∀ e ∈ ([([⟨0, 0, "x"⟩], 1)] : PyDict), ∀ k ∈ e.1,
        subsystemsGet [(0, 2), (1, 2)] k.system_id = some 2 ∧
        getOperatorMatrix k.s_type_unique 2 = .ok ((fun _ => mat2 0 1 1 0) k))
    ∧ buildMatrices (.single (.dict [([⟨0, 0, "x"⟩], 1)])) [(0, 2), (1, 2)]
        = .ok (.mat (specSum [(0, 2), (1, 2)] (fun _ => mat2 0 1 1 0)
            (2 ^ ([((0 : ℕ), (2 : ℕ)), (1, 2)] : List (ℕ × ℕ)).length) [([⟨0, 0, "x"⟩], 1)])) := by
  have h1 : (([((0 : ℕ), (2 : ℕ)), (1, 2)] : List (ℕ × ℕ)) ≠ []) := by decide
  have h2 : (∀ p ∈ ([((0 : ℕ), (2 : ℕ)), (1, 2)] : List (ℕ × ℕ)), p.2 = 2) := by decide
  have h3 : (∀ e ∈ ([([⟨0, 0, "x"⟩], 1)] : PyDict), ∀ k ∈ e.1,
      subsystemsGet [(0, 2), (1, 2)] k.system_id = some 2 ∧
      getOperatorMatrix k.s_type_unique 2 = .ok ((fun _ => mat2 0 1 1 0) k)) := by
    intro e he k hk
    rw [List.mem_singleton] at he
    subst he
    rw [List.mem_singleton] at hk
    subst hk
    exact ⟨rfl, rfl⟩
  exact ⟨h1, h2, h3, c4_realize_kron_assembly.1 _ _ _ h1 h2 h3⟩

/-- C5: both __mul__ and __rmul__ on a numeric scalar produce the
scalar-product node with the operand in position 0 and the scalar in
position 1, and realizing a scalar product equals the scalar times the
realization (as matrices, for every operand tree and subsystem map,
errors and the empty-map None propagating unchanged). -/
theorem c5_scalar_product :
    (∀ (a : DynOp) (z : ℂ), dynMul a (.num z) = .ok (.smul a z)
      ∧ dynRmul a (.num z) = .ok (.smul a z))
    ∧ (∀ (a : DynOp) (z : ℂ) (S : List (ℕ × ℕ)),
        buildMatrices (.single (.node (.smul a z))) S
          = (buildMatrices (.single (.node a)) S).map (scaleBuildOut z)) :=
  ⟨fun _ _ => ⟨rfl, rfl⟩, fun a z S => buildMatrices_smul a z S⟩

/-- C6: the claim says mixed node/dict operator lists are rejected with a
type-mismatch error in either order before any computation.  Evaluating
the code: the order [dict, node] does raise the mixed-types Exception, but
the order [node, dict] passes validation and later fails with an
AttributeError inside the matrix loop when the node is treated as a
dict. -/
theorem c6_mixed_input_not_always_rejected :
    buildMatrices (.list [.node (Sx 0), .dict [([⟨0, 0, "x"⟩], 1)]]) [(0, 2)]
      = .error ⟨"AttributeError", attrItemsMsg⟩
    ∧ buildMatrices (.list [.dict [([⟨0, 0, "x"⟩], 1)], .node (Sx 0)]) [(0, 2)]
      = .error ⟨"Exception", mixedTypesMsg⟩
    ∧ ("AttributeError" : String) ≠ "Exception" :=
  ⟨rfl, rfl, by decide⟩

/-- C7: the claim says a zero-dimension subsystem is pruned and realization
succeeds with the product of the nonzero dimensions.  Evaluating the code
at operators [Sx(0)] with map {0:2, 1:0}: the identity-matrix cache loop
requests the identity at dimension 0 and raises the unsupported-operator
Exception (pruning is an unimplemented TODO).  Only the empty-operators
early return succeeds, with the 0 excluded from the total dimension. -/
theorem c7_zero_dim_raises :
    buildMatrices (.single (.node (Sx 0))) [(0, 2), (1, 0)]
      = .error ⟨"Exception", unsupportedMsg "i" 0⟩
    ∧ buildMatrices (.list []) [(0, 2), (1, 0)] = .ok (.mat (zerosMat 2)) :=
  ⟨rfl, rfl⟩

/-- C8 counterexample: a term whose key tuple holds an unsupported type on a
present subsystem before the absent-id element fails with the
unsupported-operator error, not with a lookup error naming the absent id
1 — so the claim as universally stated is false. -/
theorem c8_counterexample_unsupported_first :
    buildMatrices (.single (.dict [([⟨0, 0, "w"⟩, ⟨1, 1, "x"⟩], 1)])) [(0, 2)]
      = .error ⟨"Exception", unsupportedMsg "w" 2⟩
    ∧ (PyErr.mk "Exception" (unsupportedMsg "w" 2)) ≠ (PyErr.mk "Exception" (missingIdMsg 1)) :=
  ⟨rfl, by decide⟩

/-- C8 (amended): realization of a single-term dict over an
all-2-dimensional map fails with the lookup error naming the offending
subsystem id, provided every key element before the first absent-id
element looks up and realizes successfully. -/
theorem c8_missing_id_error (S : List (ℕ × ℕ)) (t1 : List KeyObj) (bad : KeyObj)
    (t2 : List KeyObj) (c : ℂ) (hS : S ≠ []) (hS2 : ∀ p ∈ S, p.2 = 2)
    (h1 : ∀ k ∈ t1, subsystemsGet S k.system_id = some 2 ∧
      ∃ M, getOperatorMatrix k.s_type_unique 2 = .ok M)
    (hbad : subsystemsGet S bad.system_id = none) :
    buildMatrices (.single (.dict [(t1 ++ bad :: t2, c)])) S
      = .error ⟨"Exception", missingIdMsg bad.system_id⟩ :=
  buildMatrices_missing_id S t1 bad t2 c hS2 h1 hbad hS

/-- Witness for the amended C8 at term (X_0, X_1) with map {0:2}. -/
theorem c8_missing_id_error_witness :
    (([((0 : ℕ), (2 : ℕ))] : List (ℕ × ℕ)) ≠ [])
    ∧ (∀ p ∈ ([((0 : ℕ), (2 : ℕ))] : List (ℕ × ℕ)), p.2 = 2)
    ∧ (∀ k ∈ [(⟨0, 0, "x"⟩ : KeyObj)], subsystemsGet [(0, 2)] k.system_id = some 2 ∧
        ∃ M, getOperatorMatrix k.s_type_unique 2 = .ok M)
    ∧ subsystemsGet [(0, 2)] ((⟨1, 1, "x"⟩ : KeyObj)).system_id = none
    ∧ buildMatrices (.single (.dict [([⟨0, 0, "x"⟩] ++ (⟨1, 1, "x"⟩ : KeyObj) :: [], 1)])) [(0, 2)]
        = .error ⟨"Exception", missingIdMsg ((⟨1, 1, "x"⟩ : KeyObj)).system_id⟩ := by
  have h1 : (([((0 : ℕ), (2 : ℕ))] : List (ℕ × ℕ)) ≠ []) := by decide
  have h2 : (∀ p ∈ ([((0 : ℕ), (2 : ℕ))] : List (ℕ × ℕ)), p.2 = 2) := by decide
  have h3 : (∀ k ∈ [(⟨0, 0, "x"⟩ : KeyObj)], subsystemsGet [(0, 2)] k.system_id = some 2 ∧
      ∃ M, getOperatorMatrix k.s_type_unique 2 = .ok M) := by
    intro k hk
    rw [List.mem_singleton] at hk
    subst hk
    exact ⟨rfl, mat2 0 1 1 0, rfl⟩
  have h4 : subsystemsGet [(0, 2)] ((⟨1, 1, "x"⟩ : KeyObj)).system_id = none := rfl
  exact ⟨h1, h2, h3, h4,
    c8_missing_id_error [(0, 2)] [⟨0, 0, "x"⟩] ⟨1, 1, "x"⟩ [] 1 h1 h2 h3 h4⟩

/-- C9 counterexample: adding a number to an operator raises an error of
class Exception, not of class TypeError as the claim states. -/
theorem c9_add_raises_generic_exception :
    dynAdd (Sx 0) (.num 5) = .error ⟨"Exception", addTypeMsg⟩
    ∧ ("Exception" : String) ≠ "TypeError" :=
  ⟨rfl, by decide⟩

/-- C9 (amended): addition fails with a generic Exception-class error (not
TypeError) unless the operand is an operator node, in which case it
produces a sum node with operands [self, other]. -/
theorem c9_add_behavior (self : DynOp) (v : PyVal) :
    dynAdd self v = match v with
      | .node o => .ok (.sum self o)
      | _ => .error ⟨"Exception", addTypeMsg⟩ := by
  cases v <;> rfl

/-- C10: with an empty subsystem map, build_matrices returns None
immediately, for every operators argument (valid or not), before any
validation of the operators. -/
theorem c10_empty_subsystems_none (operators : OpsArg) :
    buildMatrices operators [] = .ok .noneOut := rfl

end DynOps

namespace CustomBinaryOp

/-- C3: compiling a declarative combination rule yields the deduplicated
unique pairs in first-encountered order (proved duplicate-free), and
evaluating the compiled rule with any binary operation on any operand
batches reproduces per entry the sum of coefficient-scaled operation
values, padding contributing zero; for the test rule the unique pairs are
[[0,2],[1,1],[2,0]] and the three output terms evaluate to
op(A0,B2) + 2 op(A1,B1) + 3 op(A2,B0), op(A0,B2), and 3 op(A1,B1). -/
theorem c3_compiled_rule_correct :
    (∀ (rl : Rule) {M : Type} [AddCommMonoid M] [Module ℝ M]
        (op : M → M → M) (A B : ℤ → M) (k : ℕ),
        evalCompiled (compileRule rl none none 0) op A B k
          = entrySum (rl.getD k ([], [])) op A B)
    ∧ (∀ (rl : Rule) (o : ℤ), (uniquePairs rl o).Nodup)
    ∧ (compileRule rule1 none none 0).1 = [(0, 2), (1, 1), (2, 0)]
    ∧ (∀ {M : Type} [AddCommMonoid M] [Module ℝ M] (op : M → M → M) (A B : ℤ → M),
        evalCompiled (compileRule rule1 none none 0) op A B 0
          = op (A 0) (B 2) + (2 : ℝ) • op (A 1) (B 1) + (3 : ℝ) • op (A 2) (B 0)
        ∧ evalCompiled (compileRule rule1 none none 0) op A B 1 = op (A 0) (B 2)
        ∧ evalCompiled (compileRule rule1 none none 0) op A B 2 = (3 : ℝ) • op (A 1) (B 1)) := by
  refine ⟨?_, fun rl o => nodup_uniquePairs rl o, by decide, ?_⟩
  · intro rl M i1 i2 op A B k
    exact evalCompiled_correct rl op A B k
  intro M i1 i2 op A B
  refine ⟨?_, ?_, ?_⟩
  · rw [evalCompiled_correct]
    simp [entrySum, rule1]
  · rw [evalCompiled_correct]
    simp [entrySum, rule1]
  · rw [evalCompiled_correct]
    simp [entrySum, rule1]

end CustomBinaryOp
